import Mathlib

/-
Shallow embedding of the DTDA query-resolution and caching engine
(bioagents/dtda/dtda.py): term extraction, drug/target relation caches,
mutation-effect matching, and the disease mutation statistics pipeline.
External services (the statement database and the cBioPortal client) are
modelled as explicit environment parameters; the per-instance caches are
threaded as explicit state.
-/

namespace Bioagents

/-! ## Python string primitives (ASCII), as used by the source -/

/-- Python str.upper on ASCII text. -/
def pyUpper (s : String) : String := String.mk (s.data.map Char.toUpper)

/-- Python str.lower on ASCII text. -/
def pyLower (s : String) : String := String.mk (s.data.map Char.toLower)

/-- Python str.capitalize on ASCII text: first character uppercased, the rest lowercased. -/
def pyCapitalize (s : String) : String :=
  match s.data with
  | [] => ""
  | c :: cs => String.mk (Char.toUpper c :: cs.map Char.toLower)

/-- Python name.replace of the hyphen by the empty string: drops every hyphen. -/
def stripHyphens (s : String) : String := String.mk (s.data.filter (fun c => c ≠ '-'))

/-- Whether the name contains a hyphen (Python: the hyphen in name). -/
def hasHyphen (s : String) : Prop := '-' ∈ s.data

instance (s : String) : Decidable (hasHyphen s) := by
  unfold hasHyphen
  infer_instance

/-! ## Entities

An indra Agent as consumed by dtda.py: a display name plus a db_refs
dictionary mapping namespace to identifier.  Python dictionaries are
modelled as association lists with distinct keys; lookup takes the first
binding. -/

structure Agent where
  name : String
  db_refs : List (String × String)
deriving DecidableEq

/-- A lookup key: an (identifier, namespace) pair, as built by dtda.py. -/
abbrev Term := String × String

/-! ## DTDA._extract_terms -/

/-- Embedding of DTDA._extract_terms: one key per db_refs entry (as (ref, ns)),
a hyphen-stripped TEXT key when the name is hyphenated, and the
capitalize/upper/lower TEXT variants of the name.  Python set semantics is a
Finset. -/
def extract_terms (agent : Agent) : Finset Term :=
  let base : Finset Term := (agent.db_refs.map (fun p => (p.2, p.1))).toFinset
  let base : Finset Term :=
    if hasHyphen agent.name then insert (stripHyphens agent.name, "TEXT") base else base
  insert (pyCapitalize agent.name, "TEXT")
    (insert (pyUpper agent.name, "TEXT")
      (insert (pyLower agent.name, "TEXT") base))

/-- The key set as described by the spec of the Term Extractor: the union of
the per-namespace keys, the hyphen-stripped variant when hyphenated, and the
three case variants. -/
def extract_terms_spec (agent : Agent) : Finset Term :=
  ({(pyCapitalize agent.name, "TEXT"), (pyUpper agent.name, "TEXT"),
    (pyLower agent.name, "TEXT")} : Finset Term)
  ∪ (agent.db_refs.map (fun p => (p.2, p.1))).toFinset
  ∪ (if hasHyphen agent.name then {(stripHyphens agent.name, "TEXT")} else (∅ : Finset Term))

/-! ## Mutation matcher (DTDA.find_mutation_effect) -/

/-- An indra point mutation record carried by an Agent. -/
structure Mutation where
  residue_from : String
  position : String
  residue_to : String
deriving DecidableEq

/-- An ActiveForm statement as consumed by find_mutation_effect: the agent
mutations and the is_active polarity. -/
structure AFStmt where
  mutations : List Mutation
  is_active : Bool
deriving DecidableEq

/-- Embedding of re.match of the pattern letter-digits-letter against the
start of the string.  Since no character is both a digit and an uppercase
letter, the greedy digit group matches exactly the maximal digit run, so the
regex matches iff the first character is uppercase, a nonempty digit run
follows, and the next character is uppercase; trailing characters are
ignored (re.match anchors at the start only). -/
def parse_aa_change (s : String) : Option (String × String × String) :=
  match s.data with
  | [] => none
  | c :: rest =>
    if c.isUpper then
      let digits := rest.takeWhile Char.isDigit
      match digits, rest.dropWhile Char.isDigit with
      | [], _ => none
      | _ :: _, c2 :: _ =>
        if c2.isUpper then some (String.mk [c], String.mk digits, String.mk [c2]) else none
      | _ :: _, [] => none
    else none

/-- The statement loop of find_mutation_effect: skip statements without
exactly one mutation; on the first statement whose single mutation matches
the parsed triple, return activate or deactivate by its polarity. -/
def match_first (wt pos sub : String) : List AFStmt → Option String
  | [] => none
  | stmt :: rest =>
    match stmt.mutations with
    | [m] =>
      if m.residue_from = wt ∧ m.position = pos ∧ m.residue_to = sub then
        some (if stmt.is_active then "activate" else "deactivate")
      else match_first wt pos sub rest
    | _ => match_first wt pos sub rest

/-- The per-protein cache of ActiveForm statements (DTDA.sub_statements). -/
abbrev SubCache := List (String × List AFStmt)

/-- The external statement database restricted to ActiveForm queries:
protein name to the returned statements. -/
abbrev AFEnv := String → List AFStmt

/-- Embedding of DTDA.find_mutation_effect.  Returns the result, the updated
sub_statements cache, and whether an external ActiveForm query was issued. -/
def find_mutation_effect (env : AFEnv) (cache : SubCache)
    (protein_name amino_acid_change : String) :
    Option String × SubCache × Bool :=
  match parse_aa_change amino_acid_change with
  | none => (none, cache, false)
  | some (wt, pos, sub) =>
    match cache.lookup protein_name with
    | none =>
      let stmts := env protein_name
      (match_first wt pos sub stmts, cache ++ [(protein_name, stmts)], true)
    | some stmts => (match_first wt pos sub stmts, cache, false)

/-- The matching rule as the spec words it: drop every assertion that does
not carry exactly one mutation, then take the first remaining assertion whose
(residue_from, position, residue_to) equals the parsed triple and read off
its polarity; null when none matches. -/
def mutation_effect_spec (wt pos sub : String) (stmts : List AFStmt) : Option String :=
  match (stmts.filter (fun st => st.mutations.length == 1)).find?
      (fun st =>
        match st.mutations with
        | [m] => decide (m.residue_from = wt) && decide (m.position = pos) &&
            decide (m.residue_to = sub)
        | _ => false) with
  | some st => some (if st.is_active then "activate" else "deactivate")
  | none => none

/-! ## Relation cache (DTDA.find_target_drugs / DTDA.find_drug_targets) -/

/-- A statement returned by the external relation query, as consumed by the
relation cache: subject name, its PUBCHEM reference if any, object name, and
the source_api tags of its evidence lines. -/
structure TasStmt where
  subj_name : String
  subj_pubchem : Option String
  obj_name : String
  evidence_sources : List String
deriving DecidableEq

/-- The external relation query of DTDA._get_tas_stmts: given the optional
drug term and optional target term, either the raw statements of the
response, or none when the database times out. -/
abbrev TasEnv := Option Term → Option Term → Option (List TasStmt)

/-- A record of one issued _get_tas_stmts call: its (drug term, target term)
arguments. -/
abbrev QueryRec := Option Term × Option Term

/-- Embedding of DTDA._get_tas_stmts: none models the DatabaseTimeoutError
raise; on success the statements are filtered to those with a tas evidence
line. -/
def get_tas_stmts (env : TasEnv) (drug_term target_term : Option Term) :
    Option (List TasStmt) :=
  (env drug_term target_term).map
    (fun stmts => stmts.filter (fun s => s.evidence_sources.any (fun ev => ev == "tas")))

/-- The two relation caches of a DTDA instance (target_drugs, drug_targets),
as association lists keyed by lookup key. -/
structure RelState where
  target_drugs : List (Term × Finset (String × Option String))
  drug_targets : List (Term × Finset String)
deriving DecidableEq

/-- Embedding of DTDA.find_target_drugs.  Returns the drug set, the updated
state, and the list of issued external queries. -/
def find_target_drugs (env : TasEnv) (st : RelState) (target : Agent) :
    Finset (String × Option String) × RelState × List QueryRec :=
  match target.db_refs.lookup "HGNC" with
  | none => (∅, st, [])
  | some hgnc =>
    let target_term : Term := (hgnc, "HGNC")
    match st.target_drugs.lookup target_term with
    | some drugs => (drugs, st, [])
    | none =>
      match get_tas_stmts env none (some target_term) with
      | none => (∅, st, [(none, some target_term)])
      | some stmts =>
        let drugs := (stmts.map (fun s => (s.subj_name, s.subj_pubchem))).toFinset
        (drugs, { st with target_drugs := st.target_drugs ++ [(target_term, drugs)] },
          [(none, some target_term)])

/-- The per-key loop of DTDA.find_drug_targets over the extracted terms:
cache hit serves the stored set; cache miss queries, then stores on success
or skips the key on timeout.  The result is the union over all keys. -/
def find_drug_targets_loop (env : TasEnv) :
    List Term → RelState → Finset String × RelState × List QueryRec
  | [], st => (∅, st, [])
  | term :: rest, st =>
    match st.drug_targets.lookup term with
    | some targets =>
      let r := find_drug_targets_loop env rest st
      (targets ∪ r.1, r.2.1, r.2.2)
    | none =>
      match get_tas_stmts env (some term) none with
      | none =>
        let r := find_drug_targets_loop env rest st
        (r.1, r.2.1, (some term, none) :: r.2.2)
      | some stmts =>
        let targets := (stmts.map (fun s => s.obj_name)).toFinset
        let st2 : RelState :=
          { st with drug_targets := st.drug_targets ++ [(term, targets)] }
        let r := find_drug_targets_loop env rest st2
        (targets ∪ r.1, r.2.1, (some term, none) :: r.2.2)

/-- One concrete enumeration of extract_terms (Python iterates the set in
an unspecified order): the db_refs keys, the hyphen-stripped variant, the
case variants, deduplicated. -/
def extract_terms_list (agent : Agent) : List Term :=
  ((agent.db_refs.map (fun p => (p.2, p.1)))
    ++ (if hasHyphen agent.name then [(stripHyphens agent.name, "TEXT")] else [])
    ++ [(pyCapitalize agent.name, "TEXT"), (pyUpper agent.name, "TEXT"),
        (pyLower agent.name, "TEXT")]).dedup

/-- Embedding of DTDA.find_drug_targets: extract the terms of the drug and
run the per-term loop over one enumeration of that set. -/
def find_drug_targets (env : TasEnv) (st : RelState) (drug : Agent) :
    Finset String × RelState × List QueryRec :=
  find_drug_targets_loop env (extract_terms_list drug) st

/-! ## Disease mutation aggregator (DTDA.get_mutation_statistics) -/

/-- The fixed effect tally dictionary with keys activate, deactivate, other.
Counts are Python floats holding small integers, modelled as rationals. -/
structure EffectDict where
  activate : ℚ
  deactivate : ℚ
  other : ℚ
deriving DecidableEq

/-- The mutation_dict of get_mutation_statistics: gene to
(case count, effect tally), an insertion-ordered association list. -/
abbrev MutDict := List (String × ℚ × EffectDict)

/-- The static pathway gene lists of the DTDA class (DTDA.gene_lists). -/
def gene_lists : List (String × List String) :=
  [("rtk_signaling",
    ["EGFR", "ERBB2", "ERBB3", "ERBB4", "PDGFA", "PDGFB",
     "PDGFRA", "PDGFRB", "KIT", "FGF1", "FGFR1", "IGF1",
     "IGF1R", "VEGFA", "VEGFB", "KDR"]),
   ("pi3k_signaling",
    ["PIK3CA", "PIK3R1", "PIK3R2", "PTEN", "PDPK1", "AKT1",
     "AKT2", "FOXO1", "FOXO3", "MTOR", "RICTOR", "TSC1", "TSC2",
     "RHEB", "AKT1S1", "RPTOR", "MLST8"]),
   ("mapk_signaling",
    ["KRAS", "HRAS", "BRAF", "RAF1", "MAP3K1", "MAP3K2", "MAP3K3",
     "MAP3K4", "MAP3K5", "MAP2K1", "MAP2K2", "MAP2K3", "MAP2K4",
     "MAP2K5", "MAPK1", "MAPK3", "MAPK4", "MAPK6", "MAPK7", "MAPK8",
     "MAPK9", "MAPK12", "MAPK14", "DAB2", "RASSF1", "RAB25"])]

/-- Embedding of DTDA._get_gene_list: the concatenation of the pathway
lists in dictionary order. -/
def get_gene_list : List String := (gene_lists.map Prod.snd).flatten

/-- The cBioPortal client and the static disease table as an environment:
the efo map (disease name to study-ID prefixes, loaded from a resource
file), the study listing per prefix, the sequenced-case count per study,
and the (gene_symbol, amino_acid_change) columns per mutation query. -/
structure CbioEnv where
  efo_map : List (String × List String)
  get_cancer_studies : String → List String
  get_num_sequenced : String → Nat
  get_mutations : String → List String → String → List String × List String

/-- Embedding of DTDA._get_studies_from_disease_name: none when the disease
is absent from the table, otherwise the deduplicated accumulation of the
study listings of each of its prefixes (Python builds list of set; one
deduplication order is used). -/
def get_studies_from_disease_name (env : CbioEnv) (disease_name : String) :
    Option (List String) :=
  match env.efo_map.lookup disease_name with
  | none => none
  | some pfxs => some ((pfxs.map env.get_cancer_studies).flatten.dedup)

/-- Python max over a list with key count: scans left to right keeping the
current maximum and replacing it only on a strictly larger count, so the
first gene attaining the maximal count wins.  none on the empty list. -/
def py_max_count (genes : List String) : Option String :=
  genes.foldl
    (fun acc g =>
      match acc with
      | none => some g
      | some b => if genes.count g > genes.count b then some g else some b)
    none

/-- effect_dict incremented at the given key (the key is always one of
activate, deactivate, other). -/
def bumpEffect (e : EffectDict) (key : String) : EffectDict :=
  { activate := if key = "activate" then e.activate + 1 else e.activate,
    deactivate := if key = "deactivate" then e.deactivate + 1 else e.deactivate,
    other := if key = "other" then e.other + 1 else e.other }

/-- A fresh effect_dict of zeros incremented at the given key, as built in
the KeyError branch of the accumulation loop. -/
def initEffect (key : String) : EffectDict := bumpEffect ⟨0, 0, 0⟩ key

/-- One accumulation step of the loop: on a present gene, increment its
case count and the tally at the key; on an absent gene, append a fresh
entry [1.0, effect_dict with the key at 1]. -/
def record_mutation (d : MutDict) (g : String) (key : String) : MutDict :=
  match d.lookup g with
  | some _ =>
    d.map (fun p => if p.1 = g then (p.1, p.2.1 + 1, bumpEffect p.2.2 key) else p)
  | none => d ++ [(g, 1, initEffect key)]

/-- The inner loop of get_mutation_statistics over the zipped
(gene_symbol, amino_acid_change) records of one study: records of genes
other than the top gene are skipped; each record of the top gene is
classified through find_mutation_effect (threading its cache), null
bucketing to other, and accumulated. -/
def process_records (env : AFEnv) (top : String) :
    List (String × String) → SubCache × MutDict → SubCache × MutDict
  | [], acc => acc
  | (g, a) :: rest, acc =>
    if g ≠ top then process_records env top rest acc
    else
      let r := find_mutation_effect env acc.1 g a
      let key := r.1.getD "other"
      process_records env top rest (r.2.1, record_mutation acc.2 g key)

/-- One study of the study loop of get_mutation_statistics: add the
sequenced count to the global denominator, fetch the mutation columns, skip
the study when no genes came back, otherwise accumulate the records of the
most mutated gene of the study. -/
def process_study (env : CbioEnv) (afenv : AFEnv) (mutation_type : String)
    (acc : SubCache × MutDict × Nat) (study_id : String) :
    SubCache × MutDict × Nat :=
  let n := acc.2.2 + env.get_num_sequenced study_id
  let cols := env.get_mutations study_id get_gene_list mutation_type
  if cols.1 = [] then (acc.1, acc.2.1, n)
  else
    match py_max_count cols.1 with
    | none => (acc.1, acc.2.1, n)
    | some top =>
      let r := process_records afenv top (cols.1.zip cols.2) (acc.1, acc.2.1)
      (r.1, r.2, n)

/-- The full accumulation of get_mutation_statistics over the resolved
study IDs, before normalization. -/
def accumulate_studies (env : CbioEnv) (afenv : AFEnv) (cache : SubCache)
    (mutation_type : String) (study_ids : List String) :
    SubCache × MutDict × Nat :=
  study_ids.foldl (process_study env afenv mutation_type) (cache, [], 0)

/-- The normalization loop of get_mutation_statistics: each case count is
divided by the global sequenced-case denominator, and each of the three
tallies by their sum. -/
def normalize_dict (d : MutDict) (num_case : Nat) : MutDict :=
  d.map (fun p =>
    let s : ℚ := p.2.2.activate + p.2.2.deactivate + p.2.2.other
    (p.1, p.2.1 / (num_case : ℚ),
      (⟨p.2.2.activate / s, p.2.2.deactivate / s, p.2.2.other / s⟩ : EffectDict)))

/-- The domain exceptions get_mutation_statistics and get_top_mutation can
signal, plus the IndexError a [0] access on an empty list raises. -/
inductive DtdaErr where
  | diseaseNotFound
  | indexError
deriving DecidableEq

/-- Embedding of DTDA.get_mutation_statistics: resolve the studies (raising
DiseaseNotFound when the lookup fails or the resolved list is empty),
accumulate per study, then normalize.  Returns the statistics together with
the updated sub_statements cache. -/
def get_mutation_statistics (env : CbioEnv) (afenv : AFEnv) (cache : SubCache)
    (disease_name mutation_type : String) :
    Except DtdaErr (MutDict × SubCache) :=
  match get_studies_from_disease_name env disease_name with
  | none => .error .diseaseNotFound
  | some study_ids =>
    if study_ids = [] then .error .diseaseNotFound
    else
      let r := accumulate_studies env afenv cache mutation_type study_ids
      .ok (normalize_dict r.2.1 r.2.2, r.1)

/-- Stable descending insertion sort by case-fraction: Python sorted with
key the fraction and reverse true keeps the original order of equal keys.
An earlier entry is inserted in front of every later entry of equal key. -/
def insertDesc (x : String × ℚ × EffectDict) :
    MutDict → MutDict
  | [] => [x]
  | y :: ys => if x.2.1 ≥ y.2.1 then x :: y :: ys else y :: insertDesc x ys

/-- The sorted mutation statistics of get_top_mutation. -/
def sortDesc : MutDict → MutDict
  | [] => []
  | x :: xs => insertDesc x (sortDesc xs)

/-- Python int on a rational: truncation toward zero. -/
def pyTrunc (q : ℚ) : Int := if q ≥ 0 then ⌊q⌋ else -⌊-q⌋

/-- Embedding of DTDA.get_top_mutation: query the statistics with mutation
type missense, re-raise DiseaseNotFound, sort descending by case-fraction
and take entry [0] (an IndexError on an empty mapping; the is-None guard of
the source never fires because get_mutation_statistics always returns a
dictionary), returning the gene and the truncated integer percentage. -/
def get_top_mutation (env : CbioEnv) (afenv : AFEnv) (cache : SubCache)
    (disease_name : String) :
    Except DtdaErr ((String × Int) × SubCache) :=
  match get_mutation_statistics env afenv cache disease_name "missense" with
  | .error _ => .error .diseaseNotFound
  | .ok (stats, cache2) =>
    match sortDesc stats with
    | [] => .error .indexError
    | top :: _ => .ok ((top.1, pyTrunc (top.2.1 * 100)), cache2)

/-! ## Helper lemmas -/

theorem card_insert3_le {α : Type} [DecidableEq α] (a b c : α) (s : Finset α) :
    (insert a (insert b (insert c s))).card ≤ s.card + 3 := by
  have h1 := Finset.card_insert_le a (insert b (insert c s))
  have h2 := Finset.card_insert_le b (insert c s)
  have h3 := Finset.card_insert_le c s
  omega

/-! ## Claim theorems -/

/-- C3 counterexample: the claim fixes the cardinality of the extracted key
set at 3 + number of db_refs entries (+1 when hyphenated), but for the
entity named A with no db_refs the capitalize and upper variants coincide
and the set has only 2 elements. -/
theorem c3_counterexample :
    ¬ ((extract_terms { name := "A", db_refs := [] }).card =
        3 + (({ name := "A", db_refs := [] } : Agent)).db_refs.length +
          (if hasHyphen "A" then 1 else 0)) := by decide

/-- C3 (amended): the extracted key set is exactly the union of the three
case variants of the name, one key per db_refs entry, and the
hyphen-stripped variant when the name is hyphenated; duplicates collapse by
set semantics, so its cardinality is at most (not exactly)
3 + number of db_refs entries + (1 if hyphenated). -/
theorem c3_extract_terms_amended (agent : Agent) :
    extract_terms agent = extract_terms_spec agent ∧
    (extract_terms agent).card ≤
      3 + agent.db_refs.length + (if hasHyphen agent.name then 1 else 0) := by
  constructor
  · unfold extract_terms extract_terms_spec
    by_cases h : hasHyphen agent.name <;>
      simp only [h, if_pos, if_neg, not_false_iff, if_true, if_false] <;> ext x <;>
      simp only [Finset.mem_insert, Finset.mem_union, Finset.mem_singleton,
        Finset.not_mem_empty, or_false] <;> tauto
  · unfold extract_terms
    have hb : ((agent.db_refs.map (fun p => (p.2, p.1))).toFinset).card ≤
        agent.db_refs.length := by
      have := List.toFinset_card_le (agent.db_refs.map (fun p => (p.2, p.1)))
      simpa using this
    by_cases h : hasHyphen agent.name <;>
      simp only [h, if_pos, if_neg, not_false_iff, if_true, if_false]
    · have h1 := card_insert3_le (pyCapitalize agent.name, "TEXT")
        (pyUpper agent.name, "TEXT") (pyLower agent.name, "TEXT")
        (insert (stripHyphens agent.name, "TEXT")
          ((agent.db_refs.map (fun p => (p.2, p.1))).toFinset))
      have h2 := Finset.card_insert_le (stripHyphens agent.name, "TEXT")
        ((agent.db_refs.map (fun p => (p.2, p.1))).toFinset)
      omega
    · have h1 := card_insert3_le (pyCapitalize agent.name, "TEXT")
        (pyUpper agent.name, "TEXT") (pyLower agent.name, "TEXT")
        ((agent.db_refs.map (fun p => (p.2, p.1))).toFinset)
      omega

/-- C8: when the mutation string does not parse as letter-digits-letter,
find_mutation_effect returns null at once, issues no external ActiveForm
query, and leaves the per-protein statement cache unchanged. -/
theorem c8_parse_fail_short_circuit (env : AFEnv) (cache : SubCache)
    (protein_name s : String) (h : parse_aa_change s = none) :
    find_mutation_effect env cache protein_name s = (none, cache, false) := by
  unfold find_mutation_effect
  rw [h]

/-- C8 witness: find_mutation_effect of X and notamutation returns null with
no query and no cache write. -/
theorem c8_witness :
    find_mutation_effect (fun _ => []) [] "X" "notamutation" = (none, [], false) :=
  c8_parse_fail_short_circuit (fun _ => []) [] "X" "notamutation" (by decide)

theorem match_first_eq_spec (wt pos sub : String) (stmts : List AFStmt) :
    match_first wt pos sub stmts = mutation_effect_spec wt pos sub stmts := by
  induction stmts with
  | nil => rfl
  | cons stmt rest ih =>
    unfold match_first mutation_effect_spec
    unfold mutation_effect_spec at ih
    match hm : stmt.mutations with
    | [] => simpa [List.filter_cons, hm] using ih
    | [m] =>
      by_cases hc : m.residue_from = wt ∧ m.position = pos ∧ m.residue_to = sub
      · obtain ⟨h1, h2, h3⟩ := hc
        simp [List.filter_cons, List.find?_cons, hm, h1, h2, h3]
      · have hb : (decide (m.residue_from = wt) && decide (m.position = pos) &&
            decide (m.residue_to = sub)) = false := by
          simp only [Bool.and_eq_true, decide_eq_true_eq, ← Bool.not_eq_true]
          tauto
        simp only [List.filter_cons, hm, List.length_cons, List.length_nil]
        simpa [List.find?_cons, hm, hb, hc] using ih
    | m1 :: m2 :: ms => simpa [List.filter_cons, hm] using ih

/-- C5: whenever the mutation string parses to a triple, find_mutation_effect
returns exactly the spec-side rule applied to the cached or retrieved
statements of the protein: skip every assertion without exactly one
mutation, return the polarity of the first remaining assertion matching the
triple, null when none matches. -/
theorem c5_find_mutation_effect_first_match (env : AFEnv) (cache : SubCache)
    (protein_name s wt pos sub : String)
    (h : parse_aa_change s = some (wt, pos, sub)) :
    (find_mutation_effect env cache protein_name s).1 =
      mutation_effect_spec wt pos sub
        ((cache.lookup protein_name).getD (env protein_name)) := by
  unfold find_mutation_effect
  rw [h]
  cases hc : cache.lookup protein_name <;>
    simp [hc, Option.getD, match_first_eq_spec]

/-- A fixture for the C5 witness: the BRAF statements are one assertion
carrying two copies of the V600E mutation (to be skipped) followed by one
carrying it once, active. -/
def afenvC5 : AFEnv := fun p =>
  if p = "BRAF" then
    [{ mutations := [⟨"V", "600", "E"⟩, ⟨"V", "600", "E"⟩], is_active := true },
     { mutations := [⟨"V", "600", "E"⟩], is_active := true }]
  else []

/-- C5 witness: on the BRAF fixture with an empty cache and the string
V600E, the returned effect equals the spec-side first match (the
double-mutation assertion being skipped). -/
theorem c5_witness :
    (find_mutation_effect afenvC5 [] "BRAF" "V600E").1 =
      mutation_effect_spec "V" "600" "E"
        ((([] : SubCache).lookup "BRAF").getD (afenvC5 "BRAF")) :=
  c5_find_mutation_effect_first_match afenvC5 [] "BRAF" "V600E" "V" "600" "E" (by decide)

theorem upper_isDigit_false (c : Char) (h : c.isUpper = true) : c.isDigit = false := by
  simp only [Char.isUpper, Char.isDigit, Bool.and_eq_true, decide_eq_true_eq,
    Bool.and_eq_false_iff, decide_eq_false_iff_not, not_le,
    UInt32.le_def, UInt32.lt_def, BitVec.le_def, BitVec.lt_def] at *
  have h65 : (UInt32.toBitVec 65).toNat = 65 := by decide
  have h57 : (UInt32.toBitVec 57).toNat = 57 := by decide
  omega

theorem takeWhile_digits (ds t : List Char) (c2 : Char)
    (hdig : ∀ d ∈ ds, d.isDigit = true) (hc2 : c2.isDigit = false) :
    (ds ++ c2 :: t).takeWhile Char.isDigit = ds ∧
    (ds ++ c2 :: t).dropWhile Char.isDigit = c2 :: t := by
  induction ds with
  | nil => simp [List.takeWhile, List.dropWhile, hc2]
  | cons d ds ih =>
    have hd : d.isDigit = true := hdig d (by simp)
    have hrest := ih (fun x hx => hdig x (by simp [hx]))
    simp [List.takeWhile_cons, List.dropWhile_cons, hd, hrest.1, hrest.2]

/-- C10: the parse is anchored at the start only: any string beginning with
an uppercase letter, a nonempty digit run and an uppercase letter, followed
by arbitrary trailing characters, parses to that triple, and
find_mutation_effect proceeds to issue the ActiveForm query (on an empty
cache), caches the statements, and matches against them, instead of
returning null for the non-substitution notation. -/
theorem c10_parse_anchored (env : AFEnv) (protein_name : String)
    (c c2 : Char) (ds t : List Char)
    (hc : c.isUpper = true) (hds : ds ≠ [])
    (hdig : ∀ d ∈ ds, d.isDigit = true) (hc2 : c2.isUpper = true) :
    parse_aa_change (String.mk (c :: (ds ++ c2 :: t))) =
      some (String.mk [c], String.mk ds, String.mk [c2]) ∧
    find_mutation_effect env [] protein_name (String.mk (c :: (ds ++ c2 :: t))) =
      (match_first (String.mk [c]) (String.mk ds) (String.mk [c2]) (env protein_name),
        [(protein_name, env protein_name)], true) := by
  have hc2d : c2.isDigit = false := upper_isDigit_false c2 hc2
  have htd := takeWhile_digits ds t c2 hdig hc2d
  have hparse : parse_aa_change (String.mk (c :: (ds ++ c2 :: t))) =
      some (String.mk [c], String.mk ds, String.mk [c2]) := by
    cases ds with
    | nil => exact absurd rfl hds
    | cons d ds2 =>
      unfold parse_aa_change
      simp only [hc, if_true, htd.1, htd.2, hc2]
  refine ⟨hparse, ?_⟩
  unfold find_mutation_effect
  rw [hparse]
  simp [List.lookup]

/-- A fixture for the C10 witness: one single-mutation V600E active
assertion for BRAF. -/
def afenvC10 : AFEnv := fun p =>
  if p = "BRAF" then [{ mutations := [⟨"V", "600", "E"⟩], is_active := true }] else []

/-- C10 witness: V600Efs parses to (V, 600, E) and find_mutation_effect
queries and matches on the BRAF fixture. -/
theorem c10_witness :
    parse_aa_change (String.mk ('V' :: (['6', '0', '0'] ++ 'E' :: ['f', 's']))) =
      some (String.mk ['V'], String.mk ['6', '0', '0'], String.mk ['E']) ∧
    find_mutation_effect afenvC10 [] "BRAF"
        (String.mk ('V' :: (['6', '0', '0'] ++ 'E' :: ['f', 's']))) =
      (match_first (String.mk ['V']) (String.mk ['6', '0', '0']) (String.mk ['E'])
          (afenvC10 "BRAF"),
        [("BRAF", afenvC10 "BRAF")], true) :=
  c10_parse_anchored afenvC10 "BRAF" 'V' 'E' ['6', '0', '0'] ['f', 's']
    (by decide) (by decide) (by decide) (by decide)

/-- C4: get_mutation_statistics signals DiseaseNotFound exactly when the
disease name is absent from the static disease-to-prefix table or when the
lookup succeeds but expanding its prefixes yields zero study IDs; both
cases surface as the same error. -/
theorem c4_disease_not_found_iff (env : CbioEnv) (afenv : AFEnv) (cache : SubCache)
    (disease_name mutation_type : String) :
    (get_mutation_statistics env afenv cache disease_name mutation_type =
        .error .diseaseNotFound) ↔
      (env.efo_map.lookup disease_name = none ∨
        ∃ pfxs, env.efo_map.lookup disease_name = some pfxs ∧
          (pfxs.map env.get_cancer_studies).flatten = []) := by
  unfold get_mutation_statistics get_studies_from_disease_name
  cases h : env.efo_map.lookup disease_name with
  | none => simp [h]
  | some pfxs =>
    simp only [h, Option.some.injEq, reduceCtorEq, false_or]
    constructor
    · intro hl
      by_cases he : (pfxs.map env.get_cancer_studies).flatten.dedup = []
      · exact ⟨pfxs, rfl, (List.dedup_eq_nil _).mp he⟩
      · rw [if_neg he] at hl
        exact absurd hl (by simp)
    · rintro ⟨pfxs2, hp, hflat⟩
      obtain rfl : pfxs2 = pfxs := hp.symm
      rw [if_pos ((List.dedup_eq_nil _).mpr hflat)]

/-- The ActiveForm fixture for the aggregation claims: TP53 has one
single-mutation V600E activating assertion and one single-mutation V600K
deactivating assertion. -/
def afenv6 : AFEnv := fun p =>
  if p = "TP53" then
    [{ mutations := [⟨"V", "600", "E"⟩], is_active := true },
     { mutations := [⟨"V", "600", "K"⟩], is_active := false }]
  else []

/-- The cBioPortal fixture for the aggregation claims: one disease with one
prefix resolving to two studies of 5 and 15 sequenced cases; the first
study has two TP53 records V600E and V600K, the second two TP53 records
V600K and an unparsable notation. -/
def cenv6 : CbioEnv :=
  { efo_map := [("melanoma", ["skcm"])],
    get_cancer_studies := fun p => if p = "skcm" then ["st1", "st2"] else [],
    get_num_sequenced := fun sid =>
      if sid = "st1" then 5 else if sid = "st2" then 15 else 0,
    get_mutations := fun sid _ _ =>
      if sid = "st1" then (["TP53", "TP53"], ["V600E", "V600K"])
      else if sid = "st2" then (["TP53", "TP53"], ["V600K", "bad"])
      else ([], []) }

/-- The accumulation of the two-study fixture: TP53 ends with case count
4 and tallies activate 1, deactivate 2, other 1, with global denominator
20. -/
theorem accumulate_fixture :
    accumulate_studies cenv6 afenv6 [] "missense" ["st1", "st2"] =
      ([("TP53", afenv6 "TP53")], [("TP53", (4 : ℚ), (⟨1, 2, 1⟩ : EffectDict))], 20) := by
  have hfme1 : find_mutation_effect afenv6 [] "TP53" "V600E" =
      (some "activate", [("TP53", afenv6 "TP53")], true) := by decide
  have hfme2 : find_mutation_effect afenv6 [("TP53", afenv6 "TP53")] "TP53" "V600K" =
      (some "deactivate", [("TP53", afenv6 "TP53")], false) := by decide
  have hfme3 : find_mutation_effect afenv6 [("TP53", afenv6 "TP53")] "TP53" "bad" =
      (none, [("TP53", afenv6 "TP53")], false) := by decide
  have hmax : py_max_count ["TP53", "TP53"] = some "TP53" := by decide
  have hn1 : cenv6.get_num_sequenced "st1" = 5 := by decide
  have hn2 : cenv6.get_num_sequenced "st2" = 15 := by decide
  have hm1 : cenv6.get_mutations "st1" get_gene_list "missense" =
      (["TP53", "TP53"], ["V600E", "V600K"]) := by decide
  have hm2 : cenv6.get_mutations "st2" get_gene_list "missense" =
      (["TP53", "TP53"], ["V600K", "bad"]) := by decide
  have hpr1 : process_records afenv6 "TP53" [("TP53", "V600E"), ("TP53", "V600K")] ([], []) =
      ([("TP53", afenv6 "TP53")], [("TP53", (2 : ℚ), (⟨1, 1, 0⟩ : EffectDict))]) := by
    simp only [process_records, hfme1, hfme2, record_mutation, List.lookup, initEffect,
      bumpEffect, reduceIte, String.reduceEq, reduceCtorEq, Option.getD_some, List.map_cons,
      List.map_nil, List.cons_append, List.nil_append, ne_eq]
    norm_num
  have hpr2 : process_records afenv6 "TP53" [("TP53", "V600K"), ("TP53", "bad")]
        ([("TP53", afenv6 "TP53")], [("TP53", (2 : ℚ), (⟨1, 1, 0⟩ : EffectDict))]) =
      ([("TP53", afenv6 "TP53")], [("TP53", (4 : ℚ), (⟨1, 2, 1⟩ : EffectDict))]) := by
    simp only [process_records, hfme2, hfme3, record_mutation, List.lookup, initEffect,
      bumpEffect, reduceIte, String.reduceEq, reduceCtorEq, Option.getD_some, Option.getD_none,
      List.map_cons, List.map_nil, List.cons_append, List.nil_append, ne_eq]
    norm_num
  have hps1 : process_study cenv6 afenv6 "missense" ([], [], 0) "st1" =
      ([("TP53", afenv6 "TP53")], [("TP53", (2 : ℚ), (⟨1, 1, 0⟩ : EffectDict))], 5) := by
    simp only [process_study, hn1, hm1, hmax, reduceIte, reduceCtorEq, List.zip_cons_cons,
      List.zip_nil_right, hpr1, Nat.reduceAdd, Nat.zero_add]
  have hps2 : process_study cenv6 afenv6 "missense"
        ([("TP53", afenv6 "TP53")], [("TP53", (2 : ℚ), (⟨1, 1, 0⟩ : EffectDict))], 5) "st2" =
      ([("TP53", afenv6 "TP53")], [("TP53", (4 : ℚ), (⟨1, 2, 1⟩ : EffectDict))], 20) := by
    simp only [process_study, hn2, hm2, hmax, reduceIte, reduceCtorEq, List.zip_cons_cons,
      List.zip_nil_right, hpr2, Nat.reduceAdd]
  simp only [accumulate_studies, List.foldl_cons, List.foldl_nil, hps1, hps2]

/-- C6: on the two-study fixture with sequenced counts 5 and 15
(denominator 20) and TP53 accumulating 4 cases with tallies activate 1,
deactivate 2, other 1, get_mutation_statistics divides the case count by
the global denominator and each tally by their sum, yielding case-fraction
1/5 = 0.2 and the distribution (1/4, 1/2, 1/4), which sums to 1. -/
theorem c6_normalization_fixture :
    get_mutation_statistics cenv6 afenv6 [] "melanoma" "missense" =
      .ok ([("TP53", (1/5 : ℚ), (⟨1/4, 1/2, 1/4⟩ : EffectDict))],
        [("TP53", afenv6 "TP53")]) ∧
    ((1 : ℚ)/4 + 1/2 + 1/4 = 1) := by
  refine ⟨?_, by norm_num⟩
  have hstudies : get_studies_from_disease_name cenv6 "melanoma" = some ["st1", "st2"] := by
    decide
  simp only [get_mutation_statistics, hstudies, accumulate_fixture, reduceCtorEq, reduceIte,
    normalize_dict, List.map_cons, List.map_nil]
  norm_num

/-- The failing fixture for C1: the disease resolves to one study whose
mutation query returns no rows, so the statistics mapping is empty. -/
def cenvC1 : CbioEnv :=
  { efo_map := [("melanoma", ["skcm"])],
    get_cancer_studies := fun p => if p = "skcm" then ["stx"] else [],
    get_num_sequenced := fun _ => 7,
    get_mutations := fun _ _ _ => ([], []) }

/-- C1: the code contradicts the claim at an empty statistics mapping:
get_top_mutation indexes entry [0] of the empty sorted list and raises
IndexError (the is-None guard of the source never fires because the
aggregator always returns a mapping), instead of returning null as the
claim and the dead guard intend. -/
theorem c1_empty_stats_index_error :
    get_top_mutation cenvC1 (fun _ => []) [] "melanoma" = .error .indexError := by
  rfl

/-- The sum of the three tallies of an effect_dict (the divisor of the
normalization step). -/
def tallySum (e : EffectDict) : ℚ := e.activate + e.deactivate + e.other

theorem match_first_cases (wt pos sub : String) (stmts : List AFStmt) :
    match_first wt pos sub stmts = none ∨
    match_first wt pos sub stmts = some "activate" ∨
    match_first wt pos sub stmts = some "deactivate" := by
  induction stmts with
  | nil => exact Or.inl rfl
  | cons stmt rest ih =>
    match hm : stmt.mutations with
    | [m] =>
      by_cases hc : m.residue_from = wt ∧ m.position = pos ∧ m.residue_to = sub
      · cases hb : stmt.is_active
        · exact Or.inr (Or.inr (by simp [match_first, hm, hc, hb]))
        · exact Or.inr (Or.inl (by simp [match_first, hm, hc, hb]))
      · simpa [match_first, hm, hc] using ih
    | [] => simpa [match_first, hm] using ih
    | m1 :: m2 :: ms => simpa [match_first, hm] using ih

theorem effect_key_cases (env : AFEnv) (cache : SubCache) (p a : String) :
    (find_mutation_effect env cache p a).1.getD "other" = "activate" ∨
    (find_mutation_effect env cache p a).1.getD "other" = "deactivate" ∨
    (find_mutation_effect env cache p a).1.getD "other" = "other" := by
  unfold find_mutation_effect
  cases hp : parse_aa_change a with
  | none => simp
  | some tri =>
    obtain ⟨wt, pos, sub⟩ := tri
    cases hc : cache.lookup p with
    | none =>
      rcases match_first_cases wt pos sub (env p) with h | h | h <;> simp [h]
    | some stmts =>
      rcases match_first_cases wt pos sub stmts with h | h | h <;> simp [h]

/-- The divide-by-zero safety invariant on a mutation_dict. -/
def dictInv (d : MutDict) : Prop := ∀ p ∈ d, 1 ≤ tallySum p.2.2

theorem initEffect_tallySum (key : String)
    (hk : key = "activate" ∨ key = "deactivate" ∨ key = "other") :
    tallySum (initEffect key) = 1 := by
  rcases hk with rfl | rfl | rfl <;> simp [initEffect, bumpEffect, tallySum]

theorem bumpEffect_tallySum_le (e : EffectDict) (key : String) :
    tallySum e ≤ tallySum (bumpEffect e key) := by
  unfold bumpEffect tallySum
  dsimp only
  split_ifs <;> linarith

theorem record_mutation_inv (d : MutDict) (g key : String)
    (hk : key = "activate" ∨ key = "deactivate" ∨ key = "other")
    (hd : dictInv d) : dictInv (record_mutation d g key) := by
  unfold record_mutation
  cases hl : d.lookup g with
  | some v =>
    intro p hp
    simp only [List.mem_map] at hp
    obtain ⟨q, hq, rfl⟩ := hp
    by_cases hg : q.1 = g
    · have h1 := hd q hq
      have h2 := bumpEffect_tallySum_le q.2.2 key
      simp only [hg, if_pos]
      linarith
    · simpa [hg] using hd q hq
  | none =>
    intro p hp
    rcases List.mem_append.mp hp with h | h
    · exact hd p h
    · simp only [List.mem_singleton] at h
      subst h
      simp [initEffect_tallySum key hk]

theorem process_records_inv (env : AFEnv) (top : String)
    (records : List (String × String)) :
    ∀ acc : SubCache × MutDict, dictInv acc.2 →
      dictInv (process_records env top records acc).2 := by
  induction records with
  | nil => intro acc hd; simpa [process_records] using hd
  | cons r rest ih =>
    intro acc hd
    obtain ⟨g, a⟩ := r
    by_cases hg : g ≠ top
    · simpa [process_records, hg] using ih acc hd
    · simp only [process_records, hg, if_neg, ite_false, if_false, not_true_eq_false]
      exact ih _ (record_mutation_inv acc.2 g _ (effect_key_cases env acc.1 g a) hd)

theorem process_study_inv (env : CbioEnv) (afenv : AFEnv) (mt : String)
    (acc : SubCache × MutDict × Nat) (sid : String) (hd : dictInv acc.2.1) :
    dictInv (process_study env afenv mt acc sid).2.1 := by
  unfold process_study
  dsimp only
  split
  · exact hd
  · split
    · exact hd
    · exact process_records_inv afenv _ _ (acc.1, acc.2.1) hd

theorem accumulate_studies_inv (env : CbioEnv) (afenv : AFEnv) (cache : SubCache)
    (mt : String) (ids : List String) :
    dictInv (accumulate_studies env afenv cache mt ids).2.1 := by
  suffices h : ∀ acc : SubCache × MutDict × Nat, dictInv acc.2.1 →
      dictInv (ids.foldl (process_study env afenv mt) acc).2.1 by
    refine h (cache, [], 0) ?_
    intro p hp
    simp at hp
  induction ids with
  | nil => intro acc hd; simpa using hd
  | cons sid rest ih =>
    intro acc hd
    simp only [List.foldl_cons]
    exact ih _ (process_study_inv env afenv mt acc sid hd)

/-- C9: every gene entry of the mapping accumulated by
get_mutation_statistics has an effect tally summing to at least 1 (an entry
is created with one incremented bucket and every later record only
increments), so the division by the tally sum in the normalization step
never divides by zero. -/
theorem c9_tally_sum_ge_one (env : CbioEnv) (afenv : AFEnv) (cache : SubCache)
    (mutation_type : String) (study_ids : List String)
    (g : String) (c : ℚ) (e : EffectDict)
    (h : (g, c, e) ∈ (accumulate_studies env afenv cache mutation_type study_ids).2.1) :
    1 ≤ e.activate + e.deactivate + e.other := by
  have hinv := accumulate_studies_inv env afenv cache mutation_type study_ids (g, c, e) h
  simpa [tallySum] using hinv

/-- C9 witness: on the two-study fixture, the TP53 entry has tallies 1, 2,
1, and the theorem yields 1 ≤ 1 + 2 + 1. -/
theorem c9_witness : 1 ≤ (1 : ℚ) + 2 + 1 :=
  c9_tally_sum_ge_one cenv6 afenv6 [] "missense" ["st1", "st2"] "TP53" 4 ⟨1, 2, 1⟩
    (by rw [accumulate_fixture]; exact List.mem_singleton.mpr rfl)

theorem lookup_append_of_beq_false {α β : Type} [BEq α] (l : List (α × β)) (t : α) (v : β)
    (K : α) (h : (K == t) = false) : (l ++ [(t, v)]).lookup K = l.lookup K := by
  induction l with
  | nil => simp [List.lookup, h]
  | cons p rest ih =>
    obtain ⟨k, b⟩ := p
    cases hb : K == k <;> simp [List.lookup, hb, ih]

theorem c2_loop_preserves (env : TasEnv) (terms : List Term) (st : RelState) (K : Term)
    (hT : env (some K) none = none) (hC : st.drug_targets.lookup K = none) :
    ((find_drug_targets_loop env terms st).2.1).drug_targets.lookup K = none ∧
    (K ∈ terms →
      ((some K, none) : QueryRec) ∈ (find_drug_targets_loop env terms st).2.2) := by
  induction terms generalizing st with
  | nil =>
    refine ⟨by simpa [find_drug_targets_loop] using hC, ?_⟩
    intro hm
    simp at hm
  | cons t rest ih =>
    by_cases ht : t = K
    · subst ht
      have hg : get_tas_stmts env (some t) none = none := by simp [get_tas_stmts, hT]
      simp only [find_drug_targets_loop, hC, hg]
      obtain ⟨h1, h2⟩ := ih st hC
      exact ⟨h1, fun _ => List.mem_cons_self _ _⟩
    · have hne : (K == t) = false := beq_eq_false_iff_ne.mpr (fun he => ht he.symm)
      cases hc : st.drug_targets.lookup t with
      | some targets =>
        simp only [find_drug_targets_loop, hc]
        obtain ⟨h1, h2⟩ := ih st hC
        refine ⟨h1, fun hm => ?_⟩
        rcases List.mem_cons.mp hm with he | hm2
        · exact absurd he.symm ht
        · exact h2 hm2
      | none =>
        cases hg : get_tas_stmts env (some t) none with
        | none =>
          simp only [find_drug_targets_loop, hc, hg]
          obtain ⟨h1, h2⟩ := ih st hC
          refine ⟨h1, fun hm => ?_⟩
          rcases List.mem_cons.mp hm with he | hm2
          · exact absurd he.symm ht
          · exact List.mem_cons_of_mem _ (h2 hm2)
        | some stmts =>
          have hC2 : (({ st with drug_targets := st.drug_targets ++
              [(t, (stmts.map (fun s => s.obj_name)).toFinset)] } : RelState)).drug_targets.lookup
                K = none := by
            simpa [lookup_append_of_beq_false _ _ _ _ hne] using hC
          simp only [find_drug_targets_loop, hc, hg]
          obtain ⟨h1, h2⟩ := ih _ hC2
          refine ⟨h1, fun hm => ?_⟩
          rcases List.mem_cons.mp hm with he | hm2
          · exact absurd he.symm ht
          · exact List.mem_cons_of_mem _ (h2 hm2)

/-- C2: a timed-out relation query leaves the relation cache without an
entry for the key: find_target_drugs returns an empty result, an unchanged
state and one issued query, and find_drug_targets leaves no drug_targets
entry for the key while re-issuing the query for every occurrence of it, so
an immediately repeated call re-attempts the external query. -/
theorem c2_timeout_leaves_no_entry (env : TasEnv) (st : RelState) (target drug : Agent)
    (hgnc : String) (K : Term)
    (hH : target.db_refs.lookup "HGNC" = some hgnc)
    (hC1 : st.target_drugs.lookup (hgnc, "HGNC") = none)
    (hT1 : env none (some (hgnc, "HGNC")) = none)
    (hC2 : st.drug_targets.lookup K = none)
    (hT2 : env (some K) none = none) :
    find_target_drugs env st target = (∅, st, [(none, some (hgnc, "HGNC"))]) ∧
    ((find_drug_targets env st drug).2.1).drug_targets.lookup K = none ∧
    (K ∈ extract_terms_list drug →
      ((some K, none) : QueryRec) ∈ (find_drug_targets env st drug).2.2) := by
  refine ⟨?_, ?_, ?_⟩
  · have hg : get_tas_stmts env none (some (hgnc, "HGNC")) = none := by
      simp [get_tas_stmts, hT1]
    simp [find_target_drugs, hH, hC1, hg]
  · exact (c2_loop_preserves env (extract_terms_list drug) st K hT2 hC2).1
  · exact (c2_loop_preserves env (extract_terms_list drug) st K hT2 hC2).2

/-- The everywhere-timing-out environment used by the C2 witness. -/
def tasEnvTimeout : TasEnv := fun _ _ => none

/-- The empty relation-cache state. -/
def relStateEmpty : RelState := { target_drugs := [], drug_targets := [] }

/-- A target agent with an HGNC grounding, for the relation cache
witnesses. -/
def targetBRAF : Agent := { name := "BRAF", db_refs := [("HGNC", "1097")] }

/-- A drug agent without groundings, for the relation cache witnesses. -/
def drugX : Agent := { name := "X", db_refs := [] }

/-- C2 witness: on the everywhere-timing-out environment with empty caches,
find_target_drugs returns the empty set with the cache unchanged, and
find_drug_targets leaves no entry for the key (X, TEXT) while issuing its
query. -/
theorem c2_witness :
    find_target_drugs tasEnvTimeout relStateEmpty targetBRAF =
      (∅, relStateEmpty, [(none, some ("1097", "HGNC"))]) ∧
    ((find_drug_targets tasEnvTimeout relStateEmpty drugX).2.1).drug_targets.lookup
        (("X", "TEXT") : Term) = none ∧
    ((("X", "TEXT") : Term) ∈ extract_terms_list drugX →
      ((some (("X", "TEXT") : Term), none) : QueryRec) ∈
        (find_drug_targets tasEnvTimeout relStateEmpty drugX).2.2) :=
  c2_timeout_leaves_no_entry tasEnvTimeout relStateEmpty targetBRAF drugX "1097"
    ("X", "TEXT") (by decide) (by decide) rfl (by decide) rfl

theorem lookup_append_left_of_some {α β : Type} [BEq α] (l l2 : List (α × β)) (K : α)
    (v : β) (h : l.lookup K = some v) : (l ++ l2).lookup K = some v := by
  induction l with
  | nil => simp [List.lookup] at h
  | cons p rest ih =>
    obtain ⟨k, b⟩ := p
    cases hb : K == k <;> simp_all [List.lookup, hb]

theorem c7_loop_served (env : TasEnv) (terms : List Term) (st : RelState) (K : Term)
    (w : Finset String) (hC : st.drug_targets.lookup K = some w) :
    (K ∈ terms → w ⊆ (find_drug_targets_loop env terms st).1) ∧
    ((some K, none) : QueryRec) ∉ (find_drug_targets_loop env terms st).2.2 ∧
    ((find_drug_targets_loop env terms st).2.1).drug_targets.lookup K = some w := by
  induction terms generalizing st with
  | nil =>
    refine ⟨fun hm => by simp at hm, by simp [find_drug_targets_loop], ?_⟩
    simpa [find_drug_targets_loop] using hC
  | cons t rest ih =>
    by_cases ht : t = K
    · subst ht
      simp only [find_drug_targets_loop, hC]
      obtain ⟨h1, h2, h3⟩ := ih st hC
      exact ⟨fun _ => Finset.subset_union_left, h2, h3⟩
    · have hne : (K == t) = false := beq_eq_false_iff_ne.mpr (fun he => ht he.symm)
      cases hc : st.drug_targets.lookup t with
      | some targets =>
        simp only [find_drug_targets_loop, hc]
        obtain ⟨h1, h2, h3⟩ := ih st hC
        refine ⟨fun hm => ?_, h2, h3⟩
        rcases List.mem_cons.mp hm with he | hm2
        · exact absurd he.symm ht
        · exact (h1 hm2).trans Finset.subset_union_right
      | none =>
        cases hg : get_tas_stmts env (some t) none with
        | none =>
          simp only [find_drug_targets_loop, hc, hg]
          obtain ⟨h1, h2, h3⟩ := ih st hC
          refine ⟨fun hm => ?_, fun hm => ?_, h3⟩
          · rcases List.mem_cons.mp hm with he | hm2
            · exact absurd he.symm ht
            · exact h1 hm2
          · rcases List.mem_cons.mp hm with he | hm2
            · have : K = t := by
                have := congrArg Prod.fst he
                simpa using this
              exact ht this.symm
            · exact h2 hm2
        | some stmts =>
          have hC2 : (({ st with drug_targets := st.drug_targets ++
              [(t, (stmts.map (fun s => s.obj_name)).toFinset)] } : RelState)).drug_targets.lookup
                K = some w := by
            simpa [lookup_append_of_beq_false _ _ _ _ hne] using hC
          simp only [find_drug_targets_loop, hc, hg]
          obtain ⟨h1, h2, h3⟩ := ih _ hC2
          refine ⟨fun hm => ?_, fun hm => ?_, h3⟩
          · rcases List.mem_cons.mp hm with he | hm2
            · exact absurd he.symm ht
            · exact (h1 hm2).trans Finset.subset_union_right
          · rcases List.mem_cons.mp hm with he | hm2
            · have : K = t := by
                have := congrArg Prod.fst he
                simpa using this
              exact ht this.symm
            · exact h2 hm2

/-- C7: a lookup key resolved and stored in the relation cache is served
from the cache on a later call: find_target_drugs returns the stored set
with no external query and an unchanged state, and find_drug_targets
contributes the stored set of the key to its union without issuing any
query for that key and without touching its entry. -/
theorem c7_cache_hit_determinism (env : TasEnv) (st : RelState) (target drug : Agent)
    (hgnc : String) (K : Term) (v : Finset (String × Option String)) (w : Finset String)
    (hH : target.db_refs.lookup "HGNC" = some hgnc)
    (hC1 : st.target_drugs.lookup (hgnc, "HGNC") = some v)
    (hK : K ∈ extract_terms_list drug)
    (hC2 : st.drug_targets.lookup K = some w) :
    find_target_drugs env st target = (v, st, []) ∧
    w ⊆ (find_drug_targets env st drug).1 ∧
    ((some K, none) : QueryRec) ∉ (find_drug_targets env st drug).2.2 ∧
    ((find_drug_targets env st drug).2.1).drug_targets.lookup K = some w := by
  obtain ⟨h1, h2, h3⟩ := c7_loop_served env (extract_terms_list drug) st K w hC2
  refine ⟨?_, h1 hK, h2, h3⟩
  simp [find_target_drugs, hH, hC1]

/-- A pre-populated relation cache for the C7 witness: the BRAF target term
and the (X, TEXT) drug term already carry stored sets. -/
def relStateC7 : RelState :=
  { target_drugs := [((("1097", "HGNC") : Term), {("vemurafenib", some "42611257")})],
    drug_targets := [((("X", "TEXT") : Term), {"BRAF"})] }

/-- C7 witness: on the pre-populated cache, find_target_drugs serves the
stored drug set with no query, and find_drug_targets serves the stored
target set of (X, TEXT) without querying it. -/
theorem c7_witness :
    find_target_drugs tasEnvTimeout relStateC7 targetBRAF =
      ({("vemurafenib", some "42611257")}, relStateC7, []) ∧
    ({"BRAF"} : Finset String) ⊆ (find_drug_targets tasEnvTimeout relStateC7 drugX).1 ∧
    ((some (("X", "TEXT") : Term), none) : QueryRec) ∉
      (find_drug_targets tasEnvTimeout relStateC7 drugX).2.2 ∧
    ((find_drug_targets tasEnvTimeout relStateC7 drugX).2.1).drug_targets.lookup
      (("X", "TEXT") : Term) = some {"BRAF"} :=
  c7_cache_hit_determinism tasEnvTimeout relStateC7 targetBRAF drugX "1097" ("X", "TEXT")
    {("vemurafenib", some "42611257")} {"BRAF"} (by decide) (by decide) (by decide) (by decide)

end Bioagents
